import Mathlib

/-!
Verification of the configuration staging / deploy workflow of the
MCPO Configuration Manager (src/ui/app.py).

The Python module is shallowly embedded: JSON values are an inductive type,
the two on-disk files (the canonical config and the staging draft) are an
explicit `Store` state, and each Python function of the workflow core becomes
a Lean function of the same name returning `Except PyErr _ × Store`
(exceptions become `Except.error`, partial state effects are kept).
-/

/-- JSON values as handled by Python's `json` module.  Numbers are modelled as
integers (the configurations manipulated by the app contain no floats, and no
claim depends on float formatting).  An object is its ordered field list, as a
Python dict is its insertion-ordered key/value pairs; objects obtained by
parsing a file have pairwise distinct keys. -/
inductive Json where
  | null
  | bool (b : Bool)
  | num (n : Int)
  | str (s : String)
  | arr (elems : List Json)
  | obj (fields : List (String × Json))

mutual

/-- Boolean equality on `Json`, used to derive decidable equality. -/
def Json.beq : Json → Json → Bool
  | .null, .null => true
  | .bool a, .bool b => a == b
  | .num a, .num b => a == b
  | .str a, .str b => a == b
  | .arr a, .arr b => beqList a b
  | .obj a, .obj b => beqFields a b
  | _, _ => false

/-- Pointwise `Json.beq` on lists. -/
def beqList : List Json → List Json → Bool
  | [], [] => true
  | a :: as, b :: bs => Json.beq a b && beqList as bs
  | _, _ => false

/-- Pointwise `Json.beq` on field lists. -/
def beqFields : List (String × Json) → List (String × Json) → Bool
  | [], [] => true
  | (k, v) :: as, (k', v') :: bs => k == k' && Json.beq v v' && beqFields as bs
  | _, _ => false

end

mutual

theorem Json.eq_of_beq : ∀ {a b : Json}, Json.beq a b = true → a = b
  | .null, .null, _ => rfl
  | .bool _, .bool _, h => by
    simp only [Json.beq, beq_iff_eq] at h; exact h ▸ rfl
  | .num _, .num _, h => by
    simp only [Json.beq, beq_iff_eq] at h; exact h ▸ rfl
  | .str _, .str _, h => by
    simp only [Json.beq, beq_iff_eq] at h; exact h ▸ rfl
  | .arr a, .arr b, h => by
    simp only [Json.beq] at h; exact congrArg Json.arr (eqList_of_beqList h)
  | .obj a, .obj b, h => by
    simp only [Json.beq] at h; exact congrArg Json.obj (eqFields_of_beqFields h)

theorem eqList_of_beqList : ∀ {a b : List Json}, beqList a b = true → a = b
  | [], [], _ => rfl
  | a :: as, b :: bs, h => by
    simp only [beqList, Bool.and_eq_true] at h
    exact congrArg₂ (· :: ·) (Json.eq_of_beq h.1) (eqList_of_beqList h.2)

theorem eqFields_of_beqFields :
    ∀ {a b : List (String × Json)}, beqFields a b = true → a = b
  | [], [], _ => rfl
  | (k, v) :: as, (k', v') :: bs, h => by
    simp only [beqFields, Bool.and_eq_true, beq_iff_eq] at h
    have h1 : k = k' := h.1.1
    have h2 : v = v' := Json.eq_of_beq h.1.2
    exact congrArg₂ (· :: ·) (by rw [h1, h2]) (eqFields_of_beqFields h.2)

end

mutual

theorem Json.beq_refl : ∀ a : Json, Json.beq a a = true
  | .null => rfl
  | .bool b => by simp [Json.beq]
  | .num n => by simp [Json.beq]
  | .str s => by simp [Json.beq]
  | .arr a => by simp only [Json.beq]; exact beqList_refl a
  | .obj a => by simp only [Json.beq]; exact beqFields_refl a

theorem beqList_refl : ∀ a : List Json, beqList a a = true
  | [] => rfl
  | a :: as => by
    simp only [beqList, Bool.and_eq_true]
    exact ⟨Json.beq_refl a, beqList_refl as⟩

theorem beqFields_refl : ∀ a : List (String × Json), beqFields a a = true
  | [] => rfl
  | (k, v) :: as => by
    simp only [beqFields, Bool.and_eq_true, beq_self_eq_true]
    exact ⟨⟨trivial, Json.beq_refl v⟩, beqFields_refl as⟩

end

instance : DecidableEq Json := fun a b =>
  if h : Json.beq a b = true then .isTrue (Json.eq_of_beq h)
  else .isFalse (fun he => h (he ▸ Json.beq_refl a))

/-- Python truthiness of a JSON value: None, False, 0, empty string, empty
list and empty dict are falsy, everything else truthy. -/
def Json.truthy : Json → Bool
  | .null => false
  | .bool b => b
  | .num n => n != 0
  | .str s => !s.isEmpty
  | .arr es => !es.isEmpty
  | .obj fs => !fs.isEmpty

/-- First binding of key `k` in an ordered field list (a parsed Python dict
has pairwise distinct keys, so this is dict lookup). -/
def Json.lookup (k : String) : List (String × Json) → Option Json
  | [] => none
  | p :: rest => if p.1 = k then some p.2 else Json.lookup k rest

/-- Python dict assignment `d[k] = v`: replaces the binding in place if the
key is present, otherwise appends it (insertion order semantics). -/
def setField (l : List (String × Json)) (k : String) (v : Json) :
    List (String × Json) :=
  match l with
  | [] => [(k, v)]
  | p :: rest => if p.1 = k then (k, v) :: rest else p :: setField rest k v

/-- Does `s` start with `pat`? -/
def listStarts : List Char → List Char → Bool
  | _, [] => true
  | [], _ :: _ => false
  | c :: s, d :: p => c == d && listStarts s p

/-- Does `pat` occur as a contiguous sublist of `s`? -/
def listHas (s pat : List Char) : Bool :=
  match s with
  | [] => pat.isEmpty
  | _ :: t => listStarts s pat || listHas t pat

/-- Python substring membership `pat in s`. -/
def strContains (s pat : String) : Bool := listHas s.data pat.data

/-- Python exceptions that the embedded code can raise. -/
inductive PyErr where
  | typeError
  | keyError
  | ioError
deriving DecidableEq, Repr

/-- Python membership test `k in j` for a string `k`: key lookup on a dict,
element membership on a list, substring test on a string, TypeError on
null/bool/number. -/
def pyContains (k : String) : Json → Except PyErr Bool
  | .obj fs => .ok (Json.lookup k fs).isSome
  | .arr es => .ok (es.contains (.str k))
  | .str s => .ok (strContains s k)
  | _ => .error .typeError

/-- Python subscript `j[k]` for a string `k`: dict lookup (KeyError when the
key is missing), TypeError on every non-dict value. -/
def pyGetStr (k : String) : Json → Except PyErr Json
  | .obj fs =>
    match Json.lookup k fs with
    | some v => .ok v
    | none => .error .keyError
  | _ => .error .typeError

/-- Python subscript assignment `j[k] = v` for a string `k`: dict update,
TypeError on every non-dict value. -/
def pySetStr (k : String) (v : Json) : Json → Except PyErr Json
  | .obj fs => .ok (.obj (setField fs k v))
  | _ => .error .typeError

/-- State of one on-disk file as the Python code can observe it:
`absent` (os.path.exists is False), `unreadable` (exists, but opening or
reading raises IOError), `unparsable` (exists and reads, but json parsing
raises JSONDecodeError), or `content j` (exists and parses to the value `j`;
the byte-level serialization is abstracted away, Python's json round-trip
being exact on the values modelled here). -/
inductive FileState where
  | absent
  | unreadable
  | unparsable
  | content (j : Json)
deriving DecidableEq

/-- The mutable state the workflow functions touch: the canonical config file
(CONFIG_FILE, app.py:9), the staging draft file (TEMP_CONFIG_FILE, app.py:11),
and whether a write to the canonical path succeeds.  `canonicalWritable`
models the IOError that `open(CONFIG_FILE, "w")` can raise (permissions, disk
full); a failed write leaves the previous canonical state in place.  Writes to
the draft path under /tmp are modelled as always succeeding. -/
structure Store where
  canonical : FileState
  staging : FileState
  canonicalWritable : Bool
deriving DecidableEq

/-- Modelled from the spec: the single server entry of the bundled example
asset /app/config.example.json, which is not under src/.  Section 6 of the
spec describes the asset as a read-only single-entry mapping seeding a
default "time" server, and section 8 gives it a stdio spec; the command and
arguments are those the app's own "time" preset uses (app.py:230-236). -/
def exampleServerList : List (String × Json) :=
  [("time", .obj [("command", .str "uvx"),
    ("args", .arr [.str "mcp-server-time", .str "--local-timezone=America/New_York"])])]

/-- Modelled from the spec: the servers mapping of the bundled example
asset. -/
def exampleServers : Json := .obj exampleServerList

/-- Modelled from the spec: the whole bundled example configuration
(`load_example_config`, app.py:27-30, reads it from EXAMPLE_CONFIG_FILE). -/
def exampleConfig : Json := .obj [("mcpServers", exampleServers)]

/-- The repair condition `"mcpServers" not in config or not config["mcpServers"]`
that appears verbatim at app.py:34 and app.py:47, with Python's short-circuit
evaluation: the subscript is only evaluated when the membership test passed. -/
def needsServers (config : Json) : Except PyErr Bool :=
  match pyContains "mcpServers" config with
  | .error e => .error e
  | .ok true =>
    match pyGetStr "mcpServers" config with
    | .error e => .error e
    | .ok v => .ok (!v.truthy)
  | .ok false => .ok true

/-- `ensure_servers_exist` (app.py:32-38): if the config lacks a truthy
`mcpServers` member, install the example's servers (the `st.warning` call is
presentation only).  The dict assignment raises TypeError on non-dict
configs. -/
def ensure_servers_exist (config : Json) : Except PyErr Json :=
  match needsServers config with
  | .error e => .error e
  | .ok true => pySetStr "mcpServers" exampleServers config
  | .ok false => .ok config

/-- `save_config` (app.py:60-66): repair via `ensure_servers_exist`, then
write the full configuration to the canonical path (directory creation always
succeeds; the write itself raises IOError when the path is not writable).
The Python function's constant `return True` is dropped. -/
def save_config (config : Json) (s : Store) : Except PyErr Unit × Store :=
  match ensure_servers_exist config with
  | .error e => (.error e, s)
  | .ok config' =>
    if s.canonicalWritable then (.ok (), { s with canonical := .content config' })
    else (.error .ioError, s)

/-- The fallback tail of `load_config` (app.py:54-58): load the example
config, persist it, return it.  This runs outside the try block, so a write
failure here propagates. -/
def load_config_fallback (s : Store) : Except PyErr Json × Store :=
  match save_config exampleConfig s with
  | (.ok _, s') => (.ok exampleConfig, s')
  | (.error e, s') => (.error e, s')

/-- `load_config` (app.py:40-58): read the canonical file inside a try that
catches JSONDecodeError and IOError (falling back to the example config); a
parsed config with a missing or falsy `mcpServers` is repaired and persisted
before being returned.  The TypeError that the repair condition raises on a
parsed non-dict value is not caught.  A save failure inside the try is an
IOError, hence caught, hence also falls back. -/
def load_config (s : Store) : Except PyErr Json × Store :=
  match s.canonical with
  | .content j =>
    match needsServers j with
    | .error e => (.error e, s)
    | .ok false => (.ok j, s)
    | .ok true =>
      match ensure_servers_exist j with
      | .error e => (.error e, s)
      | .ok j' =>
        match save_config j' s with
        | (.ok _, s') => (.ok j', s')
        | (.error .ioError, s') => load_config_fallback s'
        | (.error e, s') => (.error e, s')
  | .unparsable => load_config_fallback s
  | .unreadable => load_config_fallback s
  | .absent => load_config_fallback s

/-- `load_temp_config` (app.py:68-76): the parsed staging file, or Python
`None` when the file is absent or any exception occurred while reading or
parsing it.  (A staging file containing the JSON literal `null` also parses
to Python `None`; callers treat the two identically, so `Json.null` drafts
and `none` coincide observationally.) -/
def load_temp_config (s : Store) : Option Json :=
  match s.staging with
  | .content j => some j
  | _ => none

/-- `save_temp_config` (app.py:78-82): write the config to the staging path
(outside the watched tree). -/
def save_temp_config (config : Json) (s : Store) : Store :=
  { s with staging := .content config }

/-- `get_working_config` (app.py:84-89): the draft when it is truthy
(`if temp:`), else whatever `load_config` yields. -/
def get_working_config (s : Store) : Except PyErr Json × Store :=
  match load_temp_config s with
  | some t => if t.truthy then (.ok t, s) else load_config s
  | none => load_config s

/-- `update_working_config` (app.py:91-93). -/
def update_working_config (config : Json) (s : Store) : Store :=
  save_temp_config config s

/-- One character of Python json string escaping: the structural characters
(double quote and backslash) are escaped, every other character stands for
itself.  (Python additionally hex-escapes control and non-ASCII characters;
that refinement is omitted because both schemes are injective, so the induced
equality of serializations — the only thing the fingerprint claims consume —
is the same.) -/
def escChar (c : Char) : List Char :=
  if c = '"' then ['\\', '"'] else if c = '\\' then ['\\', '\\'] else [c]

/-- Escape a character list. -/
def escL : List Char → List Char
  | [] => []
  | c :: rest => escChar c ++ escL rest

/-- A JSON string literal: quote, escaped body, quote. -/
def quoteL (s : String) : List Char := '"' :: (escL s.data ++ ['"'])

mutual

/-- Serialization of a JSON value with Python's default separators
(", " between items, ": " between a key and its value), as
`json.dumps(config, sort_keys=True)` produces once the objects have been
key-sorted by `Json.canon`.  The output is the byte (character) list. -/
def Json.dumps : Json → List Char
  | .null => "null".data
  | .bool b => cond b "true".data "false".data
  | .num n => (toString n).data
  | .str s => quoteL s
  | .arr [] => "[]".data
  | .arr (j :: rest) => '[' :: (j.dumps ++ dumpsListTail rest ++ [']'])
  | .obj [] => ['\x7b', '\x7d']
  | .obj (p :: rest) =>
    '\x7b' :: (quoteL p.1 ++ ": ".data ++ p.2.dumps ++ dumpsFieldsTail rest ++ ['\x7d'])

/-- Serialization of the remaining array elements, each preceded by ", ". -/
def dumpsListTail : List Json → List Char
  | [] => []
  | j :: rest => ", ".data ++ j.dumps ++ dumpsListTail rest

/-- Serialization of the remaining object fields, each preceded by ", ". -/
def dumpsFieldsTail : List (String × Json) → List Char
  | [] => []
  | p :: rest => ", ".data ++ quoteL p.1 ++ ": ".data ++ p.2.dumps ++ dumpsFieldsTail rest

end

/-- Lexicographic comparison of character lists by code point, the order
Python uses on strings when sorting dict keys. -/
def charListLe : List Char → List Char → Bool
  | [], _ => true
  | _ :: _, [] => false
  | c :: s, d :: t => if c < d then true else if d < c then false else charListLe s t

/-- Field order `sort_keys=True` uses: compare keys lexicographically. -/
def keyLe (a b : String × Json) : Prop := charListLe a.1.data b.1.data = true

instance : DecidableRel keyLe := fun a b =>
  inferInstanceAs (Decidable (charListLe a.1.data b.1.data = true))

/-- Sort an object's fields by key, as `sort_keys=True` does. -/
def sortFields (l : List (String × Json)) : List (String × Json) :=
  l.insertionSort keyLe

mutual

/-- Recursively sort every object's fields by key: the canonical tree whose
plain serialization is what `json.dumps(config, sort_keys=True)` prints. -/
def Json.canon : Json → Json
  | .null => .null
  | .bool b => .bool b
  | .num n => .num n
  | .str s => .str s
  | .arr es => .arr (canonList es)
  | .obj fs => .obj (sortFields (canonFields fs))

/-- `Json.canon` on each array element. -/
def canonList : List Json → List Json
  | [] => []
  | j :: rest => j.canon :: canonList rest

/-- `Json.canon` on each field's value. -/
def canonFields : List (String × Json) → List (String × Json)
  | [] => []
  | p :: rest => (p.1, p.2.canon) :: canonFields rest

end

/-- `get_config_hash` (app.py:21-24): `json.dumps(config, sort_keys=True)`
followed by the md5 hex digest.  The digest is modelled as the canonical
serialized bytes themselves: md5 is a fixed deterministic function of the
serialization, so digest equality coincides with serialization equality
(md5 collisions are treated as absent, as the spec's use of the digest as a
content fingerprint intends). -/
def get_config_hash (config : Json) : List Char :=
  (Json.canon config).dumps

/-- `has_draft_changes` (app.py:95-102): False when no staging file exists;
otherwise compare the hash of the parsed draft (Python `None`, i.e. the null
document, when unparsable or unreadable) with the hash of the loaded
canonical config.  `load_config`'s state effects and exceptions pass
through. -/
def has_draft_changes (s : Store) : Except PyErr Bool × Store :=
  if s.staging = .absent then (.ok false, s)
  else
    match load_config s with
    | (.ok actual, s') =>
      (.ok (decide (get_config_hash ((load_temp_config s).getD .null) ≠
        get_config_hash actual)), s')
    | (.error e, s') => (.error e, s')

/-- `deploy_config` (app.py:104-112): when a staging file exists, read it
(`None` on parse failure), `save_config` it to the canonical path, and only
then remove the staging file.  An exception in `save_config` (IOError on an
unwritable canonical path, TypeError on a non-dict draft) propagates before
the removal, leaving the staging file in place. -/
def deploy_config (s : Store) : Except PyErr Bool × Store :=
  if s.staging = .absent then (.ok false, s)
  else
    match save_config ((load_temp_config s).getD .null) s with
    | (.ok _, s') => (.ok true, { s' with staging := .absent })
    | (.error e, s') => (.error e, s')

/-- Outcome of evaluating the status header (app.py:144-214) for one render
pass. -/
inductive Rendered where
  | draftBanner
  | deployingWait
  | online
  | startingWait
  | connectingWait
deriving DecidableEq

/-- One evaluation of the status header (app.py:148-214).  `probe` is the
outcome of `requests.get("http://localhost:8000/openapi.json", timeout=3)`:
`none` when the request raised, otherwise the status code and body text.
Draft changes take priority; within ten seconds of a deploy no probe is made;
otherwise the probe result renders Online exactly when the status code is 200
and the body contains the substring "openapi" (app.py:178 and app.py:195). -/
def render_status (hasDraft deploying : Bool) (timeSinceDeploy : Nat)
    (probe : Option (Nat × String)) : Rendered :=
  if hasDraft then .draftBanner
  else if deploying then
    if timeSinceDeploy < 10 then .deployingWait
    else
      match probe with
      | some (code, body) =>
        if code == 200 && strContains body "openapi" then .online else .startingWait
      | none => .startingWait
  else
    match probe with
    | some (code, body) =>
      if code == 200 && strContains body "openapi" then .online else .connectingWait
    | none => .connectingWait

/-- Outcome of the JSON editor's Apply Changes handler. -/
inductive ApplyReply where
  | applied
  | jsonDecodeFailed
  | missingKeyRejected
  | otherFailure
deriving DecidableEq

/-- The Apply Changes handler (app.py:469-481): parse the editor text
(`parsed = none` models a json.JSONDecodeError); reject with the
"must contain mcpServers" error when the membership test fails, writing
nothing; otherwise stage the new config via `update_working_config`.  A
TypeError from the membership test on a non-dict value is caught by the
generic `except Exception` arm. -/
def apply_changes (parsed : Option Json) (s : Store) : ApplyReply × Store :=
  match parsed with
  | none => (.jsonDecodeFailed, s)
  | some newConfig =>
    match pyContains "mcpServers" newConfig with
    | .ok true => (.applied, update_working_config newConfig s)
    | .ok false => (.missingKeyRejected, s)
    | .error _ => (.otherFailure, s)

/-- Outcome of the Add Server handler. -/
inductive AddReply where
  | nameRequired
  | duplicateRejected
  | added
  | nothingBuilt
deriving DecidableEq

/-- The Add Server handler (app.py:375-420) after the presentation layer has
assembled the candidate spec `new_server`: an empty name is rejected; a name
already present in `config["mcpServers"]` is rejected with the
"already exists" error before anything is written; otherwise, when the built
spec is truthy (`if new_server:`), the entry is inserted into the working
config's servers dict and the result staged via `update_working_config`. -/
def add_server (config : Json) (name : String) (new_server : Json)
    (s : Store) : Except PyErr AddReply × Store :=
  if name = "" then (.ok .nameRequired, s)
  else
    match pyGetStr "mcpServers" config with
    | .error e => (.error e, s)
    | .ok servers =>
      match pyContains name servers with
      | .error e => (.error e, s)
      | .ok true => (.ok .duplicateRejected, s)
      | .ok false =>
        if new_server.truthy then
          match pySetStr name new_server servers with
          | .error e => (.error e, s)
          | .ok servers' =>
            match pySetStr "mcpServers" servers' config with
            | .error e => (.error e, s)
            | .ok config' => (.ok .added, update_working_config config' s)
        else (.ok .nothingBuilt, s)

theorem charListLe_total : ∀ a b : List Char, charListLe a b = true ∨ charListLe b a = true
  | [], _ => .inl rfl
  | _ :: _, [] => .inr rfl
  | c :: s, d :: t => by
    rcases lt_trichotomy c d with h | h | h
    · exact .inl (by simp [charListLe, h])
    · subst h
      rcases charListLe_total s t with h' | h'
      · exact .inl (by simp [charListLe, h'])
      · exact .inr (by simp [charListLe, h'])
    · exact .inr (by simp [charListLe, h])

theorem charListLe_trans :
    ∀ {a b c : List Char}, charListLe a b = true → charListLe b c = true →
      charListLe a c = true
  | [], _, _, _, _ => rfl
  | x :: a, [], _, h, _ => by simp [charListLe] at h
  | _ :: _, _ :: _, [], _, h => by simp [charListLe] at h
  | x :: a, y :: b, z :: c, h1, h2 => by
    simp only [charListLe] at h1 h2 ⊢
    rcases lt_trichotomy x y with hxy | hxy | hxy
    · rcases lt_trichotomy y z with hyz | hyz | hyz
      · simp [lt_trans hxy hyz]
      · subst hyz; simp [hxy]
      · simp [hyz, not_lt_of_lt hyz] at h2
    · subst hxy
      rcases lt_trichotomy x z with hxz | hxz | hxz
      · simp [hxz]
      · subst hxz
        simp only [lt_irrefl, if_false] at h1 h2 ⊢
        exact charListLe_trans h1 h2
      · simp [hxz, not_lt_of_lt hxz] at h2
    · simp [hxy, not_lt_of_lt hxy] at h1

theorem charListLe_antisymm :
    ∀ {a b : List Char}, charListLe a b = true → charListLe b a = true → a = b
  | [], [], _, _ => rfl
  | [], _ :: _, _, h2 => by simp [charListLe] at h2
  | _ :: _, [], h1, _ => by simp [charListLe] at h1
  | x :: a, y :: b, h1, h2 => by
    simp only [charListLe] at h1 h2
    rcases lt_trichotomy x y with hxy | hxy | hxy
    · simp [hxy, not_lt_of_lt hxy] at h2
    · subst hxy
      simp only [lt_irrefl, if_false] at h1 h2
      exact congrArg (x :: ·) (charListLe_antisymm h1 h2)
    · simp [hxy, not_lt_of_lt hxy] at h1

theorem String.data_inj : ∀ {a b : String}, a.data = b.data → a = b
  | ⟨_⟩, ⟨_⟩, h => congrArg String.mk h

instance : IsTotal (String × Json) keyLe :=
  ⟨fun a b => charListLe_total a.1.data b.1.data⟩

instance : IsTrans (String × Json) keyLe :=
  ⟨fun _ _ _ h1 h2 => charListLe_trans h1 h2⟩

/-- The strict version of `keyLe`, used to see that two key-sorted field
lists with the same distinct keys coincide. -/
def keyLt (a b : String × Json) : Prop := keyLe a b ∧ a.1 ≠ b.1

instance : IsAntisymm (String × Json) keyLt :=
  ⟨fun _ _ h1 h2 =>
    absurd (String.data_inj (charListLe_antisymm h1.1 h2.1)) h1.2⟩

theorem sorted_keyLt {l : List (String × Json)} (hs : List.Sorted keyLe l)
    (hn : (l.map Prod.fst).Nodup) : List.Sorted keyLt l := by
  have hp : l.Pairwise (fun a b : String × Json => a.1 ≠ b.1) :=
    (List.pairwise_map.mp hn)
  exact (hs.and hp).imp (fun h => ⟨h.1, h.2⟩)

theorem sortFields_perm (l : List (String × Json)) : List.Perm (sortFields l) l :=
  List.perm_insertionSort keyLe l

/-- Key-sorting two permuted field lists with the same distinct keys yields
the same list: the heart of the fingerprint's key-order independence. -/
theorem sortFields_perm_eq {l l' : List (String × Json)}
    (hp : List.Perm l l') (hn : (l.map Prod.fst).Nodup) :
    sortFields l = sortFields l' := by
  have h1 : List.Perm (sortFields l) (sortFields l') :=
    ((sortFields_perm l).trans hp).trans (sortFields_perm l').symm
  have hn' : ((sortFields l).map Prod.fst).Nodup :=
    (((sortFields_perm l).map Prod.fst).nodup_iff).mpr hn
  have hn'' : ((sortFields l').map Prod.fst).Nodup :=
    ((h1.map Prod.fst).nodup_iff).mp hn'
  exact List.eq_of_perm_of_sorted h1
    (sorted_keyLt (List.sorted_insertionSort keyLe l) hn')
    (sorted_keyLt (List.sorted_insertionSort keyLe l') hn'')

/-- Decoder for `escL`: a backslash always starts a two-character escape, so
escaping is uniquely decodable (hence injective). -/
def unescape : List Char → List Char
  | [] => []
  | [c] => [c]
  | c :: d :: rest =>
    if c = '\\' then d :: unescape rest else c :: unescape (d :: rest)

theorem unescape_cons {c : Char} (h : c ≠ '\\') :
    ∀ l : List Char, unescape (c :: l) = c :: unescape l
  | [] => rfl
  | _ :: _ => by simp [unescape, h]

theorem unescape_escL : ∀ s : List Char, unescape (escL s) = s
  | [] => rfl
  | c :: t => by
    by_cases h1 : c = '"'
    · subst h1; simp [escL, escChar, unescape, unescape_escL t]
    · by_cases h2 : c = '\\'
      · subst h2; simp [escL, escChar, unescape, unescape_escL t]
      · simp [escL, escChar, h1, h2, unescape_cons h2, unescape_escL t]

theorem escL_inj {a b : List Char} (h : escL a = escL b) : a = b := by
  have := congrArg unescape h
  rwa [unescape_escL, unescape_escL] at this

theorem quoteL_inj {u u' : String} (h : quoteL u = quoteL u') : u = u' := by
  simp only [quoteL, List.cons.injEq, true_and] at h
  exact String.data_inj (escL_inj (List.append_cancel_right h))

theorem dumpsFieldsTail_cancel :
    ∀ (A : List (String × Json)) {k : String} {x y : Json}
      {B : List (String × Json)},
      dumpsFieldsTail (A ++ (k, x) :: B) = dumpsFieldsTail (A ++ (k, y) :: B) →
      Json.dumps x = Json.dumps y
  | [], k, x, y, B, h => by
    simp only [List.nil_append, dumpsFieldsTail, List.append_assoc,
      List.cons_append, List.cons.injEq, true_and] at h
    have h1 := List.append_cancel_left h
    simp only [List.cons.injEq, true_and] at h1
    exact List.append_cancel_right h1
  | p :: A', k, x, y, B, h => by
    simp only [List.cons_append, List.nil_append, dumpsFieldsTail,
      List.append_assoc, List.cons.injEq, true_and] at h
    have h1 := List.append_cancel_left h
    simp only [List.cons.injEq, true_and] at h1
    have h2 := List.append_cancel_left h1
    exact dumpsFieldsTail_cancel A' h2

/-- Serialization of an object determines each field value's serialization:
two objects with the same fields except for the value at one position have
equal serializations only if those values serialize equally. -/
theorem obj_dumps_cancel :
    ∀ {P : List (String × Json)} {k : String} {x y : Json}
      {Q : List (String × Json)},
      Json.dumps (.obj (P ++ (k, x) :: Q)) = Json.dumps (.obj (P ++ (k, y) :: Q)) →
      Json.dumps x = Json.dumps y
  | [], k, x, y, Q, h => by
    simp only [List.nil_append, Json.dumps, List.append_assoc,
      List.cons_append, List.cons.injEq, true_and] at h
    have h1 := List.append_cancel_left h
    simp only [List.cons.injEq, true_and] at h1
    exact List.append_cancel_right h1
  | p :: P', k, x, y, Q, h => by
    simp only [List.cons_append, List.nil_append, Json.dumps,
      List.append_assoc, List.cons.injEq, true_and] at h
    have h1 := List.append_cancel_left h
    simp only [List.cons.injEq, true_and] at h1
    have h2 := List.append_cancel_left h1
    exact dumpsFieldsTail_cancel P' (List.append_cancel_right h2)

theorem canonFields_eq_map :
    ∀ l : List (String × Json), canonFields l = l.map fun p => (p.1, p.2.canon)
  | [] => rfl
  | p :: rest => by simp [canonFields, canonFields_eq_map rest]

theorem canonFields_map_fst (l : List (String × Json)) :
    (canonFields l).map Prod.fst = l.map Prod.fst := by
  simp [canonFields_eq_map]

/-- Replace the value bound to key `k` by `v`, leaving every other binding
untouched: the "change one field value" transformation of the fingerprint
sensitivity claim. -/
def setVal (l : List (String × Json)) (k : String) (v : Json) :
    List (String × Json) :=
  l.map fun p => if p.1 = k then (p.1, v) else p

theorem setVal_append (l1 l2 : List (String × Json)) (k : String) (v : Json) :
    setVal (l1 ++ l2) k v = setVal l1 k v ++ setVal l2 k v :=
  List.map_append _ l1 l2

theorem setVal_of_not_mem {l : List (String × Json)} {k : String} {v : Json}
    (h : k ∉ l.map Prod.fst) : setVal l k v = l := by
  induction l with
  | nil => rfl
  | cons p rest ih =>
    simp only [List.map_cons, List.mem_cons, not_or] at h
    have hp : ¬ p.1 = k := fun hk => h.1 hk.symm
    have ht := ih h.2
    simp only [setVal, List.map_cons, if_neg hp] at ht ⊢
    rw [ht]

theorem setVal_cons_self (t : List (String × Json)) (k : String) (x v : Json) :
    setVal ((k, x) :: t) k v = (k, v) :: setVal t k v := by
  simp [setVal]

theorem canonFields_setVal (l : List (String × Json)) (k : String) (v : Json) :
    canonFields (setVal l k v) = setVal (canonFields l) k v.canon := by
  induction l with
  | nil => rfl
  | cons p rest ih =>
    simp only [setVal] at ih ⊢
    by_cases h : p.1 = k
    · simp [canonFields, h, ih]
    · simp [canonFields, h, ih]

theorem orderedInsert_keyMap (f : String × Json → String × Json)
    (hf : ∀ p, (f p).1 = p.1) (a : String × Json) :
    ∀ l : List (String × Json),
      List.orderedInsert keyLe (f a) (l.map f) = (List.orderedInsert keyLe a l).map f
  | [] => rfl
  | b :: t => by
    have hk : keyLe (f a) (f b) ↔ keyLe a b := by rw [keyLe, keyLe, hf, hf]
    by_cases h : keyLe a b
    · simp [List.orderedInsert, hk.mpr h, h]
    · have h' : ¬ keyLe (f a) (f b) := fun hc => h (hk.mp hc)
      simp [List.orderedInsert, h, h', orderedInsert_keyMap f hf a t]

theorem sortFields_keyMap (f : String × Json → String × Json)
    (hf : ∀ p, (f p).1 = p.1) :
    ∀ l : List (String × Json), sortFields (l.map f) = (sortFields l).map f
  | [] => rfl
  | a :: t => by
    simp only [sortFields, List.map_cons, List.insertionSort]
    rw [show List.insertionSort keyLe (t.map f) = sortFields (t.map f) from rfl,
      sortFields_keyMap f hf t]
    exact orderedInsert_keyMap f hf a (sortFields t)

theorem sortFields_setVal (l : List (String × Json)) (k : String) (v : Json) :
    sortFields (setVal l k v) = setVal (sortFields l) k v := by
  have hf : ∀ p : String × Json, ((fun p : String × Json =>
      if p.1 = k then (p.1, v) else p) p).1 = p.1 := by
    intro p; by_cases h : p.1 = k <;> simp [h]
  exact sortFields_keyMap _ hf l

theorem lookup_mem : ∀ {l : List (String × Json)} {k : String} {v : Json},
    Json.lookup k l = some v → (k, v) ∈ l
  | p :: rest, k, v, h => by
    rcases p with ⟨k', w⟩
    by_cases hk : k' = k
    · subst hk
      simp [Json.lookup] at h
      subst h
      exact List.mem_cons_self _ _
    · simp only [Json.lookup, if_neg hk] at h
      exact List.mem_cons_of_mem _ (lookup_mem h)

theorem canon_obj_eq (F : List (String × Json)) :
    Json.canon (.obj F) = .obj (sortFields (canonFields F)) := rfl

/-- Changing the value bound to one key of an object changes the canonical
serialization, provided the two values serialize differently. -/
theorem canon_obj_dumps_ne {F : List (String × Json)} {k : String} {v v' : Json}
    (hnd : (F.map Prod.fst).Nodup) (hl : Json.lookup k F = some v)
    (hne : Json.dumps (Json.canon v) ≠ Json.dumps (Json.canon v')) :
    Json.dumps (Json.canon (.obj F)) ≠
      Json.dumps (Json.canon (.obj (setVal F k v'))) := by
  intro h
  have hrw : Json.canon (.obj (setVal F k v')) =
      .obj (setVal (sortFields (canonFields F)) k (Json.canon v')) := by
    rw [canon_obj_eq, canonFields_setVal, sortFields_setVal]
  have hmem : (k, Json.canon v) ∈ sortFields (canonFields F) := by
    have h1 : (k, v) ∈ F := lookup_mem hl
    have h2 : (k, Json.canon v) ∈ canonFields F := by
      rw [canonFields_eq_map]
      exact List.mem_map.mpr ⟨(k, v), h1, rfl⟩
    exact ((sortFields_perm (canonFields F)).mem_iff).mpr h2
  have hSnd : ((sortFields (canonFields F)).map Prod.fst).Nodup := by
    have hperm : List.Perm ((sortFields (canonFields F)).map Prod.fst)
        ((canonFields F).map Prod.fst) :=
      (sortFields_perm (canonFields F)).map Prod.fst
    rw [canonFields_map_fst] at hperm
    exact hperm.nodup_iff.mpr hnd
  obtain ⟨P, Q, hPQ⟩ := List.append_of_mem hmem
  rw [hPQ] at hSnd
  simp only [List.map_append, List.map_cons] at hSnd
  rw [List.nodup_append] at hSnd
  obtain ⟨hP, hQcons, hdisj⟩ := hSnd
  have hkQ : k ∉ Q.map Prod.fst := (List.nodup_cons.mp hQcons).1
  have hkP : k ∉ P.map Prod.fst :=
    fun hin => hdisj hin (List.mem_cons_self _ _)
  have hset : setVal (sortFields (canonFields F)) k (Json.canon v') =
      P ++ (k, Json.canon v') :: Q := by
    rw [hPQ, setVal_append, setVal_cons_self, setVal_of_not_mem hkP,
      setVal_of_not_mem hkQ]
  rw [canon_obj_eq, hrw, hset, hPQ] at h
  exact hne (obj_dumps_cancel h)

/-- Key-order independence of the fingerprint: permuting the servers mapping
of a configuration (whose keys are distinct) does not change the hash. -/
theorem hash_reorder {a b : List (String × Json)}
    (hn : (a.map Prod.fst).Nodup) (hp : List.Perm a b) :
    get_config_hash (.obj [("mcpServers", .obj a)]) =
      get_config_hash (.obj [("mcpServers", .obj b)]) := by
  have hcf : List.Perm (canonFields a) (canonFields b) := by
    rw [canonFields_eq_map, canonFields_eq_map]; exact hp.map _
  have hnd : ((canonFields a).map Prod.fst).Nodup := by
    rw [canonFields_map_fst]; exact hn
  have hs : sortFields (canonFields a) = sortFields (canonFields b) :=
    sortFields_perm_eq hcf hnd
  show Json.dumps (.obj [("mcpServers", .obj (sortFields (canonFields a)))]) =
    Json.dumps (.obj [("mcpServers", .obj (sortFields (canonFields b)))])
  rw [hs]

/-- C9: `get_config_hash` (Differ.Fingerprint) is invariant under server-key
reordering of the input configuration (two configurations whose server
mappings are permutations of each other, with distinct keys, produce the same
digest), but changes under any single field value change: replacing the url
string of any one server by a different string changes the digest. -/
theorem c9_fingerprint_props :
    (∀ a b : List (String × Json), (a.map Prod.fst).Nodup → List.Perm a b →
      get_config_hash (.obj [("mcpServers", .obj a)]) =
        get_config_hash (.obj [("mcpServers", .obj b)])) ∧
    (∀ (servers : List (String × Json)) (name : String)
      (sfields : List (String × Json)) (u u' : String),
      (servers.map Prod.fst).Nodup → (sfields.map Prod.fst).Nodup →
      Json.lookup name servers = some (.obj sfields) →
      Json.lookup "url" sfields = some (.str u) → u ≠ u' →
      get_config_hash (.obj [("mcpServers", .obj servers)]) ≠
        get_config_hash (.obj [("mcpServers",
          .obj (setVal servers name (.obj (setVal sfields "url" (.str u')))))])) := by
  constructor
  · exact fun a b hn hp => hash_reorder hn hp
  · intro servers name sfields u u' hns hnf hl hlu hne h
    have hqu : quoteL u ≠ quoteL u' := fun hq => hne (quoteL_inj hq)
    have hinner : Json.dumps (Json.canon (.obj sfields)) ≠
        Json.dumps (Json.canon (.obj (setVal sfields "url" (.str u')))) :=
      canon_obj_dumps_ne hnf hlu hqu
    have houter : Json.dumps (Json.canon (.obj servers)) ≠
        Json.dumps (Json.canon (.obj (setVal servers name
          (.obj (setVal sfields "url" (.str u')))))) :=
      canon_obj_dumps_ne hns hl hinner
    exact houter (obj_dumps_cancel (P := []) (Q := []) h)

theorem c9_fingerprint_props_witness :
    get_config_hash (.obj [("mcpServers",
        .obj [("s1", .null), ("s2", .bool true)])]) =
      get_config_hash (.obj [("mcpServers",
        .obj [("s2", .bool true), ("s1", .null)])]) ∧
    get_config_hash (.obj [("mcpServers", .obj [("time",
        .obj [("type", .str "sse"), ("url", .str "http://a")])])]) ≠
      get_config_hash (.obj [("mcpServers", .obj (setVal
        [("time", .obj [("type", .str "sse"), ("url", .str "http://a")])]
        "time"
        (.obj (setVal [("type", .str "sse"), ("url", .str "http://a")]
          "url" (.str "http://b")))))]) :=
  ⟨c9_fingerprint_props.1 _ _ (by decide) (List.Perm.swap _ _ _),
   c9_fingerprint_props.2 _ "time" _ "http://a" "http://b"
     (by decide) (by decide) rfl rfl (by decide)⟩

theorem lookup_setField : ∀ (l : List (String × Json)) (k : String) (v : Json),
    Json.lookup k (setField l k v) = some v
  | [], k, v => by simp [setField, Json.lookup]
  | p :: rest, k, v => by
    by_cases h : p.1 = k
    · simp [setField, h, Json.lookup]
    · simp [setField, h, Json.lookup, lookup_setField rest k v]

theorem isEmpty_false_of_ne_nil {l : List (String × Json)} (h : l ≠ []) :
    l.isEmpty = false := by
  cases l with
  | nil => exact absurd rfl h
  | cons a t => rfl

/-- C8: for every configuration whose mcpServers mapping is a non-empty
object, ConfigStore.Save followed by ConfigStore.Load (on a writable
canonical path) returns a configuration with the same fingerprint. -/
theorem c8_save_load_roundtrip (fields servers : List (String × Json))
    (s : Store) (hs : Json.lookup "mcpServers" fields = some (.obj servers))
    (hne : servers ≠ []) (hw : s.canonicalWritable = true) :
    ∃ (s' : Store) (j : Json),
      save_config (.obj fields) s = (.ok (), s') ∧
      load_config s' = (.ok j, s') ∧
      get_config_hash j = get_config_hash (.obj fields) := by
  have hns : needsServers (.obj fields) = .ok false := by
    simp [needsServers, pyContains, pyGetStr, hs, Json.truthy,
      isEmpty_false_of_ne_nil hne]
  have hens : ensure_servers_exist (.obj fields) = .ok (.obj fields) := by
    simp [ensure_servers_exist, hns]
  refine ⟨{ s with canonical := .content (.obj fields) }, .obj fields, ?_, ?_, rfl⟩
  · simp [save_config, hens, hw]
  · simp [load_config, hns]

theorem c8_save_load_roundtrip_witness :
    ∃ (s' : Store) (j : Json),
      save_config exampleConfig ⟨.absent, .absent, true⟩ = (.ok (), s') ∧
      load_config s' = (.ok j, s') ∧
      get_config_hash j = get_config_hash exampleConfig :=
  c8_save_load_roundtrip _ _ ⟨.absent, .absent, true⟩ rfl (by decide) rfl

/-- C2: Deploy performs Save then Clear, in that order: when Save succeeds
the canonical file holds the (repaired) draft and only then is the staging
file removed; when Save raises (here: an unwritable canonical path, or a
TypeError on a non-dict draft), the error propagates before the removal, so
the staging file and its content are unchanged and the operator can retry. -/
theorem c2_deploy_save_then_clear :
    (∀ (s : Store) (j j' : Json), s.staging = .content j →
      ensure_servers_exist j = .ok j' → s.canonicalWritable = true →
      deploy_config s =
        (.ok true, { s with canonical := .content j', staging := .absent })) ∧
    (∀ (s : Store) (j : Json), s.staging = .content j →
      s.canonicalWritable = false →
      (∃ e, (deploy_config s).1 = .error e) ∧
        (deploy_config s).2.staging = .content j) := by
  constructor
  · intro s j j' hst hens hw
    simp [deploy_config, hst, load_temp_config, save_config, hens, hw]
  · intro s j hst hw
    cases hens : ensure_servers_exist j with
    | ok j' =>
      refine ⟨⟨.ioError, ?_⟩, ?_⟩ <;>
        simp [deploy_config, hst, load_temp_config, save_config, hens, hw]
    | error e =>
      refine ⟨⟨e, ?_⟩, ?_⟩ <;>
        simp [deploy_config, hst, load_temp_config, save_config, hens, hw]

theorem c2_deploy_save_then_clear_witness :
    deploy_config ⟨.absent, .content exampleConfig, true⟩ =
      (.ok true, { (⟨.absent, .content exampleConfig, true⟩ : Store) with
        canonical := .content exampleConfig, staging := .absent }) ∧
    ((∃ e, (deploy_config ⟨.absent, .content exampleConfig, false⟩).1 = .error e) ∧
      (deploy_config ⟨.absent, .content exampleConfig, false⟩).2.staging =
        .content exampleConfig) :=
  ⟨c2_deploy_save_then_clear.1 _ exampleConfig exampleConfig rfl rfl rfl,
   c2_deploy_save_then_clear.2 _ exampleConfig rfl rfl⟩

/-- C10: when the staging file exists but is unparsable, Deploy raises (the
parsed draft is Python None, and the repair inside Save raises TypeError
before any write): the whole store — canonical content and staging file —
is unchanged. -/
theorem c10_deploy_unparsable_staging (s : Store)
    (h : s.staging = .unparsable) :
    deploy_config s = (.error .typeError, s) := by
  simp [deploy_config, h, load_temp_config, save_config, ensure_servers_exist,
    needsServers, pyContains]

theorem c10_deploy_unparsable_staging_witness :
    deploy_config ⟨.content exampleConfig, .unparsable, true⟩ =
      (.error .typeError, ⟨.content exampleConfig, .unparsable, true⟩) :=
  c10_deploy_unparsable_staging ⟨.content exampleConfig, .unparsable, true⟩ rfl

/-- C1 counterexample: a health probe response with HTTP status 200 and a
10-byte body is rendered Online by the idle-path status check, because the
code's only body test is the substring "openapi" — there is no body-length
check, contradicting the claim that a 200 with a trivial 10-byte body is
never rendered Online. -/
theorem c1_trivial_body_online_counterexample :
    render_status false false 0 (some (200, "openapi123")) = .online ∧
    "openapi123".length = 10 :=
  ⟨rfl, rfl⟩

/-- C1 (amended): the rendered state is Online only for a probe response with
status 200 whose body contains the marker substring "openapi"; any response
failing either test — in the deploying path as well as the idle path — is
not rendered Online.  (There is no body-length check: a trivial body that
contains the marker is rendered Online, as the counterexample shows.) -/
theorem c1_online_requires_marker (hasDraft deploying : Bool)
    (t code : Nat) (body : String)
    (h : code ≠ 200 ∨ strContains body "openapi" = false) :
    render_status hasDraft deploying t (some (code, body)) ≠ .online := by
  intro honline
  by_cases hd : hasDraft
  · simp [render_status, hd] at honline
  · by_cases hp : deploying
    · by_cases ht : t < 10
      · simp [render_status, hd, hp, ht] at honline
      · rcases h with h | h
        · simp [render_status, hd, hp, ht, h] at honline
        · simp [render_status, hd, hp, ht, h] at honline
    · rcases h with h | h
      · simp [render_status, hd, hp, h] at honline
      · simp [render_status, hd, hp, h] at honline

theorem c1_online_requires_marker_witness :
    render_status false false 0 (some (500, "nope")) ≠ .online :=
  c1_online_requires_marker false false 0 500 "nope" (Or.inl (by decide))

/-- C3 counterexample: with a well-formed canonical config and an existing
but unparsable staging file, has_draft_changes returns True — the parsed
draft is Python None, whose hash (that of the null document) differs from the
canonical config's hash — contradicting the claim that divergence is false
whenever the staging file is unparsable. -/
theorem c3_unparsable_staging_divergence_counterexample :
    has_draft_changes ⟨.content exampleConfig, .unparsable, true⟩ =
      (.ok true, ⟨.content exampleConfig, .unparsable, true⟩) := rfl

/-- C3 (amended): has_draft_changes is false when no staging file exists, and
false when the staging file parses to a draft that is key-order-equivalent to
the well-formed canonical configuration (so a no-op edit raises no divergence
warning); but an existing unparsable staging file is not treated as "no
draft" — it is hashed as the null document, as the counterexample shows. -/
theorem c3_divergence_amended :
    (∀ s : Store, s.staging = .absent → has_draft_changes s = (.ok false, s)) ∧
    (∀ (s : Store) (a d : List (String × Json)),
      s.canonical = .content (.obj [("mcpServers", .obj a)]) →
      s.staging = .content (.obj [("mcpServers", .obj d)]) →
      a ≠ [] → (a.map Prod.fst).Nodup → List.Perm a d →
      has_draft_changes s = (.ok false, s)) := by
  constructor
  · intro s h
    simp [has_draft_changes, h]
  · intro s a d hc hst hne hnd hp
    have hns : needsServers (.obj [("mcpServers", .obj a)]) = .ok false := by
      simp [needsServers, pyContains, pyGetStr, Json.lookup, Json.truthy,
        isEmpty_false_of_ne_nil hne]
    have hload : load_config s = (.ok (.obj [("mcpServers", .obj a)]), s) := by
      simp [load_config, hc, hns]
    have hhash : get_config_hash (.obj [("mcpServers", .obj d)]) =
        get_config_hash (.obj [("mcpServers", .obj a)]) :=
      (hash_reorder hnd hp).symm
    have hsne : ¬ s.staging = .absent := by rw [hst]; simp
    simp [has_draft_changes, hsne, hload, load_temp_config, hst, hhash]

theorem c3_divergence_amended_witness :
    has_draft_changes ⟨.content exampleConfig, .absent, true⟩ =
      (.ok false, ⟨.content exampleConfig, .absent, true⟩) ∧
    has_draft_changes ⟨.content (.obj [("mcpServers",
        .obj [("s1", .null), ("s2", .bool true)])]),
      .content (.obj [("mcpServers",
        .obj [("s2", .bool true), ("s1", .null)])]), true⟩ =
      (.ok false, ⟨.content (.obj [("mcpServers",
        .obj [("s1", .null), ("s2", .bool true)])]),
      .content (.obj [("mcpServers",
        .obj [("s2", .bool true), ("s1", .null)])]), true⟩) :=
  ⟨c3_divergence_amended.1 _ rfl,
   c3_divergence_amended.2 _ _ _ rfl rfl (by decide) (by decide)
     (List.Perm.swap _ _ _)⟩

/-- C4 counterexample: a staging file holding the empty object is a present
draft (DraftStore.Load returns it), yet get_working_config ignores it — the
code's `if temp:` test uses Python truthiness, and the empty dict is falsy —
and returns the canonical configuration instead, contradicting the claim
that the draft is returned whenever one is present. -/
theorem c4_falsy_draft_counterexample :
    load_temp_config ⟨.content exampleConfig, .content (.obj []), true⟩ =
      some (.obj []) ∧
    get_working_config ⟨.content exampleConfig, .content (.obj []), true⟩ =
      (.ok exampleConfig, ⟨.content exampleConfig, .content (.obj []), true⟩) ∧
    exampleConfig ≠ .obj [] :=
  ⟨rfl, rfl, by decide⟩

/-- C4 (amended): get_working_config returns the draft whenever a draft is
present and truthy; when no draft is present, or the draft parses to a falsy
value (null, false, zero, empty string, empty list or empty object), it
returns the result of ConfigStore.Load instead. -/
theorem c4_working_config_amended :
    (∀ (s : Store) (j : Json), load_temp_config s = some j → j.truthy = true →
      get_working_config s = (.ok j, s)) ∧
    (∀ (s : Store) (j : Json), load_temp_config s = some j → j.truthy = false →
      get_working_config s = load_config s) ∧
    (∀ s : Store, load_temp_config s = none →
      get_working_config s = load_config s) := by
  refine ⟨?_, ?_, ?_⟩
  · intro s j h ht
    simp [get_working_config, h, ht]
  · intro s j h ht
    simp [get_working_config, h, ht]
  · intro s h
    simp [get_working_config, h]

theorem c4_working_config_amended_witness :
    get_working_config ⟨.absent, .content exampleConfig, true⟩ =
      (.ok exampleConfig, ⟨.absent, .content exampleConfig, true⟩) ∧
    get_working_config ⟨.content exampleConfig, .content (.obj []), true⟩ =
      load_config ⟨.content exampleConfig, .content (.obj []), true⟩ ∧
    get_working_config ⟨.content exampleConfig, .absent, true⟩ =
      load_config ⟨.content exampleConfig, .absent, true⟩ :=
  ⟨c4_working_config_amended.1 _ exampleConfig rfl rfl,
   c4_working_config_amended.2.1 _ (.obj []) rfl rfl,
   c4_working_config_amended.2.2 _ rfl⟩

/-- C5 counterexample: the claim's universal guarantee over every state of
the canonical file fails in two ways.  With a canonical file that parses to
the JSON number 5 — a parsed document with no mcpServers mapping —
load_config raises an uncaught TypeError (the membership test on a non-dict
value) and returns no configuration at all.  And with a canonical file that
parses to the empty object — a state the claim explicitly enumerates — an
unwritable canonical path makes the required repair write raise IOError, so
again no configuration is returned; this failure mode forces the
writable-path hypothesis of the amended claim. -/
theorem c5_load_nonempty_counterexample :
    load_config ⟨.content (.num 5), .absent, true⟩ =
      (.error .typeError, ⟨.content (.num 5), .absent, true⟩) ∧
    load_config ⟨.content (.obj []), .absent, false⟩ =
      (.error .ioError, ⟨.content (.obj []), .absent, false⟩) :=
  ⟨rfl, rfl⟩

/-- C5 (amended): for every state of the canonical file that is missing,
unreadable, unparsable, or parses to a JSON object whose mcpServers member is
absent, falsy, or a non-empty object — with the canonical path writable —
load_config returns a configuration whose server mapping is non-empty,
repairing with the bundled example's servers and persisting before
returning when needed.  Exactly: the missing/unreadable/unparsable states
return the bundled example configuration with the post-state canonical file
persisted to it; a parsed object with an absent or falsy mcpServers member is
returned with exactly the example's servers installed, again persisted
before returning; a well-formed configuration is returned as-is with no
write.  In every case the post-state's canonical file holds the returned
configuration, whose mcpServers member is a non-empty object.  (A canonical
file parsing to a non-object raises an uncaught TypeError, and an unwritable
canonical path makes a needed repair raise IOError, as the counterexample
shows.) -/
theorem c5_load_nonempty_amended :
    (∀ s : Store, s.canonicalWritable = true →
      s.canonical = .absent ∨ s.canonical = .unreadable ∨
        s.canonical = .unparsable →
      load_config s =
        (.ok exampleConfig, { s with canonical := .content exampleConfig })) ∧
    (∀ (s : Store) (fields : List (String × Json)),
      s.canonicalWritable = true → s.canonical = .content (.obj fields) →
      (Json.lookup "mcpServers" fields = none ∨
        ∃ v, Json.lookup "mcpServers" fields = some v ∧ v.truthy = false) →
      load_config s =
        (.ok (.obj (setField fields "mcpServers" exampleServers)),
         { s with canonical :=
           .content (.obj (setField fields "mcpServers" exampleServers)) })) ∧
    (∀ (s : Store) (fields l : List (String × Json)),
      s.canonical = .content (.obj fields) →
      Json.lookup "mcpServers" fields = some (.obj l) → l ≠ [] →
      load_config s = (.ok (.obj fields), s)) ∧
    (∀ s : Store, s.canonicalWritable = true →
      (s.canonical = .absent ∨ s.canonical = .unreadable ∨
        s.canonical = .unparsable ∨
        ∃ fields, s.canonical = .content (.obj fields) ∧
          (Json.lookup "mcpServers" fields = none ∨
           (∃ v, Json.lookup "mcpServers" fields = some v ∧ v.truthy = false) ∨
           (∃ l, l ≠ [] ∧ Json.lookup "mcpServers" fields = some (.obj l)))) →
      ∃ (jf l : List (String × Json)) (s' : Store),
        load_config s = (.ok (.obj jf), s') ∧
        s'.canonical = .content (.obj jf) ∧
        Json.lookup "mcpServers" jf = some (.obj l) ∧ l ≠ []) := by
  have hex : ensure_servers_exist exampleConfig = .ok exampleConfig := rfl
  have part1 : ∀ s : Store, s.canonicalWritable = true →
      s.canonical = .absent ∨ s.canonical = .unreadable ∨
        s.canonical = .unparsable →
      load_config s =
        (.ok exampleConfig, { s with canonical := .content exampleConfig }) := by
    intro s hw h
    have hfall : load_config_fallback s =
        (.ok exampleConfig, { s with canonical := .content exampleConfig }) := by
      simp [load_config_fallback, save_config, hex, hw]
    rcases h with h | h | h <;> simp [load_config, h, hfall]
  have part2 : ∀ (s : Store) (fields : List (String × Json)),
      s.canonicalWritable = true → s.canonical = .content (.obj fields) →
      (Json.lookup "mcpServers" fields = none ∨
        ∃ v, Json.lookup "mcpServers" fields = some v ∧ v.truthy = false) →
      load_config s =
        (.ok (.obj (setField fields "mcpServers" exampleServers)),
         { s with canonical :=
           .content (.obj (setField fields "mcpServers" exampleServers)) }) := by
    intro s fields hw hc hf
    have hns : needsServers (.obj fields) = .ok true := by
      rcases hf with hf | ⟨v, hv, hvf⟩
      · simp [needsServers, pyContains, hf]
      · simp [needsServers, pyContains, pyGetStr, hv, hvf]
    have hens : ensure_servers_exist (.obj fields) =
        .ok (.obj (setField fields "mcpServers" exampleServers)) := by
      simp [ensure_servers_exist, hns, pySetStr]
    have hns2 : needsServers
        (.obj (setField fields "mcpServers" exampleServers)) = .ok false := by
      simp [needsServers, pyContains, pyGetStr, lookup_setField,
        exampleServers, Json.truthy, exampleServerList]
    have hens2 : ensure_servers_exist
        (.obj (setField fields "mcpServers" exampleServers)) =
        .ok (.obj (setField fields "mcpServers" exampleServers)) := by
      simp [ensure_servers_exist, hns2]
    simp [load_config, hc, hns, hens, save_config, hens2, hw]
  have part3 : ∀ (s : Store) (fields l : List (String × Json)),
      s.canonical = .content (.obj fields) →
      Json.lookup "mcpServers" fields = some (.obj l) → l ≠ [] →
      load_config s = (.ok (.obj fields), s) := by
    intro s fields l hc hlk hl
    have hns : needsServers (.obj fields) = .ok false := by
      simp [needsServers, pyContains, pyGetStr, hlk, Json.truthy,
        isEmpty_false_of_ne_nil hl]
    simp [load_config, hc, hns]
  refine ⟨part1, part2, part3, ?_⟩
  intro s hw h
  rcases h with h | h | h | ⟨fields, hc, hf⟩
  · exact ⟨[("mcpServers", exampleServers)], exampleServerList, _,
      part1 s hw (Or.inl h), rfl, rfl, by decide⟩
  · exact ⟨[("mcpServers", exampleServers)], exampleServerList, _,
      part1 s hw (Or.inr (Or.inl h)), rfl, rfl, by decide⟩
  · exact ⟨[("mcpServers", exampleServers)], exampleServerList, _,
      part1 s hw (Or.inr (Or.inr h)), rfl, rfl, by decide⟩
  · rcases hf with hf | ⟨v, hv, hvf⟩ | ⟨l, hl, hlk⟩
    · exact ⟨setField fields "mcpServers" exampleServers, exampleServerList, _,
        part2 s fields hw hc (Or.inl hf), rfl,
        lookup_setField fields _ _, by decide⟩
    · exact ⟨setField fields "mcpServers" exampleServers, exampleServerList, _,
        part2 s fields hw hc (Or.inr ⟨v, hv, hvf⟩), rfl,
        lookup_setField fields _ _, by decide⟩
    · exact ⟨fields, l, s, part3 s fields l hc hlk hl, hc, hlk, hl⟩

theorem c5_load_nonempty_amended_witness :
    load_config ⟨.absent, .absent, true⟩ =
      (.ok exampleConfig, ⟨.content exampleConfig, .absent, true⟩) ∧
    load_config ⟨.content (.obj []), .absent, true⟩ =
      (.ok (.obj (setField [] "mcpServers" exampleServers)),
        ⟨.content (.obj (setField [] "mcpServers" exampleServers)),
          .absent, true⟩) ∧
    load_config ⟨.content exampleConfig, .absent, true⟩ =
      (.ok exampleConfig, ⟨.content exampleConfig, .absent, true⟩) ∧
    ∃ (jf l : List (String × Json)) (s' : Store),
      load_config ⟨.unreadable, .absent, true⟩ = (.ok (.obj jf), s') ∧
      s'.canonical = .content (.obj jf) ∧
      Json.lookup "mcpServers" jf = some (.obj l) ∧ l ≠ [] :=
  ⟨c5_load_nonempty_amended.1 _ rfl (Or.inl rfl),
   c5_load_nonempty_amended.2.1 _ [] rfl rfl (Or.inl rfl),
   c5_load_nonempty_amended.2.2.1 _ [("mcpServers", exampleServers)]
     exampleServerList rfl rfl (by decide),
   c5_load_nonempty_amended.2.2.2 _ rfl (Or.inr (Or.inl rfl))⟩


/-- C6: the Apply Changes handler (ApplyEdit) on a submitted configuration
object fails with the validation error when the top-level mcpServers key is
absent, and in that case the whole store — draft file and canonical file —
is unchanged (nothing auto-repaired, nothing written); when the key is
present, it writes exactly the submitted object to the draft file and leaves
the canonical file untouched. -/
theorem c6_apply_edit_validation (fields : List (String × Json)) (s : Store) :
    (Json.lookup "mcpServers" fields = none →
      apply_changes (some (.obj fields)) s = (.missingKeyRejected, s)) ∧
    (∀ v, Json.lookup "mcpServers" fields = some v →
      apply_changes (some (.obj fields)) s =
        (.applied, { s with staging := .content (.obj fields) })) := by
  constructor
  · intro h
    simp [apply_changes, pyContains, h]
  · intro v h
    simp [apply_changes, pyContains, h, update_working_config, save_temp_config]

theorem c6_apply_edit_validation_witness :
    apply_changes (some (.obj [("other", .null)]))
        ⟨.content exampleConfig, .absent, true⟩ =
      (.missingKeyRejected, ⟨.content exampleConfig, .absent, true⟩) ∧
    apply_changes (some (.obj [("mcpServers", .obj [])]))
        ⟨.content exampleConfig, .absent, true⟩ =
      (.applied, ⟨.content exampleConfig,
        .content (.obj [("mcpServers", .obj [])]), true⟩) :=
  ⟨(c6_apply_edit_validation [("other", .null)] _).1 rfl,
   (c6_apply_edit_validation [("mcpServers", .obj [])] _).2 (.obj []) rfl⟩

/-- C7: the Add Server handler fails with the duplicate-name error when the
name already exists in the working configuration's servers mapping, and in
that case the store — hence the working configuration — is unchanged and no
file is written; when the name is new (and the built spec non-empty), the
entry is inserted into the servers mapping and the result staged to the
draft file, leaving the canonical file untouched. -/
theorem c7_add_server_duplicate (cf servers : List (String × Json))
    (name : String) (spec : Json) (s : Store)
    (hcf : Json.lookup "mcpServers" cf = some (.obj servers))
    (hname : name ≠ "") (hspec : spec.truthy = true) :
    ((Json.lookup name servers).isSome →
      add_server (.obj cf) name spec s = (.ok .duplicateRejected, s)) ∧
    (Json.lookup name servers = none →
      add_server (.obj cf) name spec s = (.ok .added,
        { s with staging := .content (.obj (setField cf "mcpServers"
          (.obj (setField servers name spec)))) })) := by
  constructor
  · intro hdup
    simp [add_server, hname, pyGetStr, hcf, pyContains, hdup]
  · intro hnew
    simp [add_server, hname, pyGetStr, hcf, pyContains, hnew, hspec,
      pySetStr, update_working_config, save_temp_config]

theorem c7_add_server_duplicate_witness :
    add_server (.obj [("mcpServers", .obj [("time", .null)])]) "time"
        (.obj [("command", .str "npx")]) ⟨.absent, .absent, true⟩ =
      (.ok .duplicateRejected, ⟨.absent, .absent, true⟩) ∧
    add_server (.obj [("mcpServers", .obj [("time", .null)])]) "memory"
        (.obj [("command", .str "npx")]) ⟨.absent, .absent, true⟩ =
      (.ok .added, ⟨.absent, .content (.obj [("mcpServers",
        .obj [("time", .null), ("memory", .obj [("command", .str "npx")])])]),
        true⟩) :=
  ⟨(c7_add_server_duplicate [("mcpServers", .obj [("time", .null)])]
      [("time", .null)] "time" (.obj [("command", .str "npx")]) _
      rfl (by decide) rfl).1 rfl,
   (c7_add_server_duplicate [("mcpServers", .obj [("time", .null)])]
      [("time", .null)] "memory" (.obj [("command", .str "npx")]) _
      rfl (by decide) rfl).2 rfl⟩
